import Mathlib

/-!
Verification development for the appointment-booking backend
(`src/appointments/appointments.service.ts`).

Conventions of the shallow embedding:
* Instants are modelled as `Int` milliseconds since the Unix epoch
  (`Date.getTime()`).  `toISOString` is injective on the millisecond value
  and, for the fixed-width `YYYY-MM-DDTHH:mm:ss.sssZ` format the store uses,
  lexicographic string order coincides with the numeric order, so string
  comparisons in Mongo queries are modelled as `Int` comparisons.
* The Node server's own timezone is taken to be UTC (the
  `getFullYear`/`getMonth`/`getDate`/`new Date(y,m,d,12)` round-trip in
  `getWorkingHours` then computes the weekday of the calendar date of the
  given instant).  `toISOString().split('T')[0]` truncates an instant to its
  UTC calendar date, i.e. floor-division by the number of ms in a day.
* A `YYYY-MM-DD` date string is modelled by its epoch day index
  (`new Date(s + 'T00:00:00.000Z').getTime()` = index * msPerDay); equality
  of valid date strings coincides with equality of day indices.
* Optional request fields are `Option`s; `x ?? 0` becomes `Option.getD x 0`,
  and the `Number.isFinite` fallback to `0` is the `none` case.
* A fallible operation returns `Except BookingError α`; the bodies issue
  store writes only on the `Except.ok` path, mirroring the code where every
  `throw` happens before any write.
-/

namespace Appointments

/-- Milliseconds per minute (`60000` in the source). -/
def msPerMinute : Int := 60000

/-- Milliseconds per hour (`60 * 60000`). -/
def msPerHour : Int := 3600000

/-- Milliseconds per day (`24 * 60 * 60000`). -/
def msPerDay : Int := 86400000

/-- The closed set of service kinds (`ServiceKey` in
`schema/appointment.schema.ts`). -/
inductive ServiceKey
  | consultation
  | treatment
  | extraction
  | prosthetics
deriving DecidableEq

/-- `SERVICE_DURATION_MINUTES` from the service source. -/
def SERVICE_DURATION_MINUTES : ServiceKey → Int
  | ServiceKey.consultation => 15
  | ServiceKey.treatment => 45
  | ServiceKey.extraction => 45
  | ServiceKey.prosthetics => 45

/-- A persisted appointment (the Mongo document of
`appointment.schema.ts`); `start`/`end` are stored as ISO strings and
modelled by their millisecond values, `id` models the Mongo `_id`. -/
structure Appointment where
  id : Nat
  name : String
  phoneNumber : String
  service : ServiceKey
  start : Int
  «end» : Int
deriving DecidableEq

/-- Weekday (`Date.getDay`, 0 = Sunday .. 6 = Saturday) of the UTC calendar
date containing the instant `ms`; 1970-01-01 was a Thursday (= 4). -/
def dayOfWeekAtMs (ms : Int) : Int :=
  (ms / msPerDay + 4) % 7

/-- The epoch day index of the local calendar date of instant `t` under a
local offset of `offsetMs` milliseconds: the source computes it as
`new Date(t - offsetMs).toISOString().split('T')[0]`. -/
def localDayIndex (t offsetMs : Int) : Int :=
  (t - offsetMs) / msPerDay

/-- Local midnight expressed in UTC milliseconds:
`new Date(localYmd + 'T00:00:00.000Z').getTime() + offsetMs`. -/
def localMidnightUtcMs (t offsetMs : Int) : Int :=
  localDayIndex t offsetMs * msPerDay + offsetMs

/-- The noon pivot of `getWorkingHours`: the instant of 12:00 on the local
calendar date of `t` (`new Date(y, m, d, 12, 0, 0)` built from the
components of `new Date(t - offsetMs)`). -/
def localNoonMs (t offsetMs : Int) : Int :=
  localDayIndex t offsetMs * msPerDay + 12 * msPerHour

/-- `getWorkingHours` from the service: derive the local day-of-week using a
noon pivot on the local calendar date, then weekends get 09:00-13:00 and
weekdays 09:00-18:00. -/
def getWorkingHours (dateUtc : Int) (tzOffsetMinutes : Option Int) : Int × Int :=
  let offsetMs := (tzOffsetMinutes.getD 0) * msPerMinute
  let day := dayOfWeekAtMs (localNoonMs dateUtc offsetMs)
  if day = 0 ∨ day = 6 then (9, 13) else (9, 18)

/-- The `for (let t = startMs; t + durationMs <= endMs; t += slotMs)` loop of
`generateSlots`, with an explicit fuel bounding the number of iterations.
The caller passes fuel `(endMs - durationMs - startMs).toNat + 1`, which is
enough for every positive `slotMs` (each iteration advances `t` by at least
one millisecond), so the fuel never truncates the loop. -/
def slotLoopFuel : Nat → Int → Int → Int → Int → List Int
  | 0, _, _, _, _ => []
  | fuel + 1, t, slotMs, durMs, endMs =>
      if t + durMs ≤ endMs then
        t :: slotLoopFuel fuel (t + slotMs) slotMs durMs endMs
      else []

/-- Start of the working window (`localMidnightUtcMs + startHour * 60 * 60000`
in `generateSlots`). -/
def windowStartMs (dateUtc : Int) (tzOffsetMinutes : Option Int) : Int :=
  localMidnightUtcMs dateUtc ((tzOffsetMinutes.getD 0) * msPerMinute) +
    (getWorkingHours dateUtc tzOffsetMinutes).1 * 60 * msPerMinute

/-- End of the working window (`localMidnightUtcMs + endHour * 60 * 60000`
in `generateSlots`). -/
def windowEndMs (dateUtc : Int) (tzOffsetMinutes : Option Int) : Int :=
  localMidnightUtcMs dateUtc ((tzOffsetMinutes.getD 0) * msPerMinute) +
    (getWorkingHours dateUtc tzOffsetMinutes).2 * 60 * msPerMinute

/-- `generateSlots` from the service: all starts on the `slotMinutes` grid
from the window start whose `durationMinutes` span fits inside the window. -/
def generateSlots (dateUtc slotMinutes durationMinutes : Int)
    (tzOffsetMinutes : Option Int) : List Int :=
  let startMs := windowStartMs dateUtc tzOffsetMinutes
  let endMs := windowEndMs dateUtc tzOffsetMinutes
  slotLoopFuel ((endMs - durationMinutes * msPerMinute - startMs).toNat + 1)
    startMs (slotMinutes * msPerMinute) (durationMinutes * msPerMinute) endMs

/-- `getBusyIntervalsISO` from the service: the `[start, end)` intervals of
every stored appointment overlapping the requested local day
(`start < dayEnd ∧ end > dayStart` with `dayEnd = localMidnight + 24h - 1ms`
in the Mongo query). -/
def getBusyIntervalsISO (store : List Appointment) (dateUtc : Int)
    (effTzOffset : Int) : List (Int × Int) :=
  let offsetMs := effTzOffset * msPerMinute
  let dayStart := localMidnightUtcMs dateUtc offsetMs
  let dayEnd := localMidnightUtcMs dateUtc offsetMs + 24 * 60 * msPerMinute - 1
  (store.filter (fun a => decide (a.start < dayEnd ∧ a.«end» > dayStart))).map
    (fun a => (a.start, a.«end»))

/-- Result of `getAvailabilityForDate`. -/
structure AvailabilityResult where
  availableSlots : List Int
  busySlots : List Int
  workingSlots : List Int
deriving DecidableEq

/-- The nested `for (interval) { for (slot) { if (t >= s && t < e) busySlots.add(slot) } }`
accumulation of `getAvailabilityForDate`; the JS `Set` is modelled as a
duplicate-free list in insertion order. -/
def collectBusySlots (busyIntervals : List (Int × Int)) (allSlots : List Int) :
    List Int :=
  busyIntervals.foldl
    (fun acc se =>
      allSlots.foldl
        (fun acc2 t =>
          if se.1 ≤ t ∧ t < se.2 ∧ t ∉ acc2 then acc2 ++ [t] else acc2)
        acc)
    []

/-- The duration used by the availability computation:
`service ? SERVICE_DURATION_MINUTES[service] : 45` (45 minutes is the
default when no service is requested). -/
def durationFor (service : Option ServiceKey) : Int :=
  match service with
  | some s => SERVICE_DURATION_MINUTES s
  | none => 45

/-- `getAvailabilityForDate` from the service.  `store` is the appointment
collection, `nowMs` is `Date.now()`, `dateDay` the epoch day index of the
(valid) `date` query string, so `date = dateDay * msPerDay` models
`new Date(dateStr + 'T00:00:00.000Z')`.  The today-check
`dateStr === new Date(nowMs + offsetMs).toISOString().split('T')[0]` becomes
equality of day indices. -/
def getAvailabilityForDate (store : List Appointment) (nowMs : Int)
    (dateDay : Int) (service : Option ServiceKey)
    (tzOffsetMinutes : Option Int) : AvailabilityResult :=
  let date := dateDay * msPerDay
  let slotMinutes : Int := 15
  let durationMinutes := durationFor service
  let effectiveTzOffset := tzOffsetMinutes.getD 0
  let allSlots := generateSlots date slotMinutes slotMinutes (some effectiveTzOffset)
  let busyIntervals := getBusyIntervalsISO store date effectiveTzOffset
  let busySlots := collectBusySlots busyIntervals allSlots
  let serviceSpecificStarts :=
    generateSlots date slotMinutes durationMinutes (some effectiveTzOffset)
  let chunksNeeded : Nat := max 1 ((durationMinutes.toNat + 15 - 1) / 15)
  let availableSlots := serviceSpecificStarts.filter (fun startIso =>
    (List.range chunksNeeded).all (fun i =>
      decide ((startIso + (i : Int) * slotMinutes * msPerMinute) ∉ busySlots)))
  let todayClientLocal :=
    (nowMs + effectiveTzOffset * msPerMinute) / msPerDay
  let availableSlots :=
    if dateDay = todayClientLocal then
      availableSlots.filter (fun iso => decide (iso > nowMs))
    else availableSlots
  { availableSlots := availableSlots
    busySlots := busySlots
    workingSlots := allSlots }

/-- Error kinds of the booking flow (the distinct `BadRequestException`
messages of the service, abstracted as in the error-handling design). -/
inductive BookingError
  | InvalidInput
  | OutOfWindow
  | SlotBusy
  | NotFound
deriving DecidableEq

/-- A `start` field of a request body: absent (or the empty, falsy string),
present but unparseable (`new Date(s)` is `NaN`), or parsed to an instant. -/
inductive DateInput
  | missing
  | invalid
  | valid (ms : Int)
deriving DecidableEq

/-- The working-hours window `[dayStart, dayEnd]` that `createAppointment`
and `updateAppointment` both derive from the appointment's start instant and
the effective timezone offset. -/
def dayWindow (startDate effTzOffset : Int) : Int × Int :=
  let wh := getWorkingHours startDate (some effTzOffset)
  let offsetMs := effTzOffset * msPerMinute
  let mid := localMidnightUtcMs startDate offsetMs
  (mid + wh.1 * 60 * msPerMinute, mid + wh.2 * 60 * msPerMinute)

/-- `createAppointment` from the service: required-field check, start parse,
working-hours check, overlap check (`start < end' ∧ end > start'` over the
whole store), then insert.  `newId` models the Mongo-generated `_id`; the
result is the new state of the store. -/
def createAppointment (store : List Appointment) (newId : Nat)
    (name phoneNumber : String) (service : Option ServiceKey)
    (start : DateInput) (tzOffset : Option Int) :
    Except BookingError (List Appointment) :=
  if name = "" ∨ phoneNumber = "" ∨ service = none ∨ start = DateInput.missing then
    Except.error BookingError.InvalidInput
  else
    match service, start with
    | some s, DateInput.valid startMs =>
        let durationMinutes := SERVICE_DURATION_MINUTES s
        let endMs := startMs + durationMinutes * msPerMinute
        let effectiveTzOffset := tzOffset.getD 0
        let w := dayWindow startMs effectiveTzOffset
        if startMs < w.1 ∨ endMs > w.2 then
          Except.error BookingError.OutOfWindow
        else if store.any (fun a => decide (a.start < endMs ∧ a.«end» > startMs)) then
          Except.error BookingError.SlotBusy
        else
          Except.ok (store ++ [⟨newId, name, phoneNumber, s, startMs, endMs⟩])
    | _, _ => Except.error BookingError.InvalidInput

/-- The PATCH body of `updateAppointment` (`tzOffset` is not a schema field,
so `$set` drops it; `end` is a schema field and does get written through). -/
structure UpdateData where
  name : Option String
  phoneNumber : Option String
  service : Option ServiceKey
  start : DateInput
  tzOffset : Option Int
  «end» : Option Int
deriving DecidableEq

/-- `deleteAppointment` from the service: `findByIdAndDelete`, `NotFound`
when no document has the id (ids are unique in the store, so removing every
match models removing the match). -/
def deleteAppointment (store : List Appointment) (id : Nat) :
    Except BookingError (List Appointment) :=
  match store.find? (fun a => decide (a.id = id)) with
  | none => Except.error BookingError.NotFound
  | some _ => Except.ok (store.filter (fun a => decide (¬a.id = id)))

/-- `updateAppointment` from the service: `findById` / `NotFound`; when a
start is supplied, validate it (parse, working hours, overlap excluding the
own id) and overwrite `updateData.end` with the recomputed end; then
`findByIdAndUpdate` applies `$set` of the supplied fields. -/
def updateAppointment (store : List Appointment) (id : Nat) (u : UpdateData) :
    Except BookingError (List Appointment) :=
  match store.find? (fun a => decide (a.id = id)) with
  | none => Except.error BookingError.NotFound
  | some appointment =>
      match u.start with
      | DateInput.invalid => Except.error BookingError.InvalidInput
      | DateInput.valid startMs =>
          let service := u.service.getD appointment.service
          let durationMinutes := SERVICE_DURATION_MINUTES service
          let endMs := startMs + durationMinutes * msPerMinute
          let effectiveTzOffset := u.tzOffset.getD 0
          let w := dayWindow startMs effectiveTzOffset
          if startMs < w.1 ∨ endMs > w.2 then
            Except.error BookingError.OutOfWindow
          else if store.any (fun a =>
              decide (¬a.id = id ∧ a.start < endMs ∧ a.«end» > startMs)) then
            Except.error BookingError.SlotBusy
          else
            Except.ok (store.map (fun a =>
              if a.id = id then
                ⟨a.id, u.name.getD a.name, u.phoneNumber.getD a.phoneNumber,
                  service, startMs, endMs⟩
              else a))
      | DateInput.missing =>
          Except.ok (store.map (fun a =>
            if a.id = id then
              ⟨a.id, u.name.getD a.name, u.phoneNumber.getD a.phoneNumber,
                u.service.getD a.service, a.start, u.«end».getD a.«end»⟩
            else a))

/-- Membership in the slot loop: given a positive step and enough fuel, the
produced instants are exactly the grid points `t + k * slotMs` whose
duration span fits before `endMs`. -/
lemma mem_slotLoopFuel {s d e : Int} (hs : 1 ≤ s) :
    ∀ (fuel : ℕ) (t x : Int), e - d - t < (fuel : Int) →
      (x ∈ slotLoopFuel fuel t s d e ↔
        ∃ k : ℕ, x = t + (k : Int) * s ∧ x + d ≤ e) := by
  intro fuel
  induction fuel with
  | zero =>
    intro t x h
    simp only [slotLoopFuel, List.not_mem_nil, false_iff, not_exists]
    rintro k ⟨rfl, hb⟩
    have hk : (0 : Int) ≤ (k : Int) * s :=
      mul_nonneg (Int.natCast_nonneg k) (by omega)
    omega
  | succ n ih =>
    intro t x h
    by_cases hc : t + d ≤ e
    · simp only [slotLoopFuel]
      rw [if_pos hc]
      constructor
      · intro hx
        rcases List.mem_cons.mp hx with rfl | hx
        · exact ⟨0, by simp, hc⟩
        · have h' : e - d - (t + s) < (n : Int) := by push_cast at h ⊢; omega
          rcases (ih (t + s) x h').mp hx with ⟨k, hk, hb⟩
          exact ⟨k + 1, by push_cast [hk]; ring, hb⟩
      · rintro ⟨k, rfl, hb⟩
        cases k with
        | zero => simp
        | succ j =>
          apply List.mem_cons_of_mem
          apply (ih (t + s) _ (by push_cast at h ⊢; omega)).mpr
          exact ⟨j, by push_cast; ring, hb⟩
    · simp only [slotLoopFuel]
      rw [if_neg hc]
      simp only [List.not_mem_nil, false_iff, not_exists]
      rintro k ⟨rfl, hb⟩
      have hk : (0 : Int) ≤ (k : Int) * s :=
        mul_nonneg (Int.natCast_nonneg k) (by omega)
      omega

/-- The head of a nonempty slot loop is the initial cursor. -/
lemma head?_slotLoopFuel {s d e : Int} :
    ∀ (fuel : ℕ) (t y : Int),
      (slotLoopFuel fuel t s d e).head? = some y → y = t := by
  intro fuel t y h
  cases fuel with
  | zero => simp [slotLoopFuel] at h
  | succ n =>
    simp only [slotLoopFuel] at h
    by_cases hc : t + d ≤ e
    · rw [if_pos hc] at h
      simp only [List.head?_cons, Option.some.injEq] at h
      omega
    · rw [if_neg hc] at h
      simp at h

/-- Consecutive elements of the slot loop differ by exactly the step. -/
lemma chain'_slotLoopFuel {s d e : Int} :
    ∀ (fuel : ℕ) (t : Int),
      (slotLoopFuel fuel t s d e).Chain' (fun a b => b = a + s) := by
  intro fuel
  induction fuel with
  | zero => intro t; simp [slotLoopFuel]
  | succ n ih =>
    intro t
    simp only [slotLoopFuel]
    by_cases hc : t + d ≤ e
    · rw [if_pos hc]
      refine List.chain'_cons'.mpr ⟨?_, ih (t + s)⟩
      intro y hy
      exact head?_slotLoopFuel n (t + s) y hy
    · rw [if_neg hc]
      simp

/-- Translating the cursor and the bound together shifts every slot. -/
lemma slotLoopFuel_shift {s d : Int} :
    ∀ (fuel : ℕ) (t e c : Int),
      slotLoopFuel fuel (t + c) s d (e + c) =
        (slotLoopFuel fuel t s d e).map (· + c) := by
  intro fuel
  induction fuel with
  | zero => intro t e c; simp [slotLoopFuel]
  | succ n ih =>
    intro t e c
    simp only [slotLoopFuel]
    by_cases hc : t + d ≤ e
    · rw [if_pos (by omega : t + c + d ≤ e + c), if_pos hc]
      rw [List.map_cons]
      have h := ih (t + s) e c
      rw [show t + c + s = t + s + c by ring, h]
    · rw [if_neg (by omega : ¬t + c + d ≤ e + c), if_neg hc]
      simp

/-- The slot loop starting at `t` is the loop starting at `0` shifted. -/
lemma slotLoopFuel_base (fuel : ℕ) (t s d e : Int) :
    slotLoopFuel fuel t s d e =
      (slotLoopFuel fuel 0 s d (e - t)).map (· + t) := by
  have h := slotLoopFuel_shift (s := s) (d := d) fuel 0 (e - t) t
  simpa using h

/-- The working window is always `(9, 13)` or `(9, 18)`. -/
lemma getWorkingHours_cases (t : Int) (z : Option Int) :
    getWorkingHours t z = (9, 13) ∨ getWorkingHours t z = (9, 18) := by
  simp only [getWorkingHours]
  split
  · exact Or.inl rfl
  · exact Or.inr rfl

/-- The working window only depends on the local calendar date. -/
lemma getWorkingHours_congr {t₁ t₂ : Int} (z : Option Int)
    (h : localDayIndex t₁ ((z.getD 0) * msPerMinute) =
      localDayIndex t₂ ((z.getD 0) * msPerMinute)) :
    getWorkingHours t₁ z = getWorkingHours t₂ z := by
  simp only [getWorkingHours, localNoonMs, h]

/-- The window end minus the window start is the window width in ms. -/
lemma windowEndMs_sub_windowStartMs (d : Int) (tz : Option Int) :
    windowEndMs d tz - windowStartMs d tz =
      ((getWorkingHours d tz).2 - (getWorkingHours d tz).1) * 60 * msPerMinute := by
  simp only [windowStartMs, windowEndMs]
  ring

/-- Membership in the inner busy-marking fold over one interval. -/
lemma mem_foldl_markBusy (se : Int × Int) :
    ∀ (slots : List Int) (acc : List Int) (x : Int),
      x ∈ slots.foldl
          (fun acc2 t =>
            if se.1 ≤ t ∧ t < se.2 ∧ t ∉ acc2 then acc2 ++ [t] else acc2)
          acc ↔
        x ∈ acc ∨ (x ∈ slots ∧ se.1 ≤ x ∧ x < se.2) := by
  intro slots
  induction slots with
  | nil => intro acc x; simp
  | cons t ts ih =>
    intro acc x
    simp only [List.foldl_cons]
    rw [ih]
    by_cases h1 : se.1 ≤ t ∧ t < se.2 ∧ t ∉ acc
    · rw [if_pos h1]
      obtain ⟨ha, hb, hnm⟩ := h1
      constructor
      · rintro (hx | ⟨hx, h3, h4⟩)
        · rcases List.mem_append.mp hx with hx | hx
          · exact Or.inl hx
          · rcases List.mem_singleton.mp hx with rfl
            exact Or.inr ⟨List.mem_cons_self x ts, ha, hb⟩
        · exact Or.inr ⟨List.mem_cons_of_mem t hx, h3, h4⟩
      · rintro (hx | ⟨hx, h3, h4⟩)
        · exact Or.inl (List.mem_append.mpr (Or.inl hx))
        · rcases List.mem_cons.mp hx with rfl | hx
          · exact Or.inl (List.mem_append.mpr (Or.inr (List.mem_singleton.mpr rfl)))
          · exact Or.inr ⟨hx, h3, h4⟩
    · rw [if_neg h1]
      push_neg at h1
      constructor
      · rintro (hx | ⟨hx, h3, h4⟩)
        · exact Or.inl hx
        · exact Or.inr ⟨List.mem_cons_of_mem t hx, h3, h4⟩
      · rintro (hx | ⟨hx, h3, h4⟩)
        · exact Or.inl hx
        · rcases List.mem_cons.mp hx with rfl | hx
          · exact Or.inl (h1 h3 h4)
          · exact Or.inr ⟨hx, h3, h4⟩

/-- Membership in the accumulated busy set over a list of intervals. -/
lemma mem_foldl_collect (allSlots : List Int) :
    ∀ (intervals : List (Int × Int)) (acc : List Int) (x : Int),
      x ∈ intervals.foldl
          (fun acc se =>
            allSlots.foldl
              (fun acc2 t =>
                if se.1 ≤ t ∧ t < se.2 ∧ t ∉ acc2 then acc2 ++ [t] else acc2)
              acc)
          acc ↔
        x ∈ acc ∨ (x ∈ allSlots ∧ ∃ se ∈ intervals, se.1 ≤ x ∧ x < se.2) := by
  intro intervals
  induction intervals with
  | nil => intro acc x; simp
  | cons se ivs ih =>
    intro acc x
    simp only [List.foldl_cons]
    rw [ih, mem_foldl_markBusy]
    constructor
    · rintro ((hx | ⟨hs, h1, h2⟩) | ⟨hs, se', hse', h1, h2⟩)
      · exact Or.inl hx
      · exact Or.inr ⟨hs, se, List.mem_cons_self se ivs, h1, h2⟩
      · exact Or.inr ⟨hs, se', List.mem_cons_of_mem se hse', h1, h2⟩
    · rintro (hx | ⟨hs, se', hse', h1, h2⟩)
      · exact Or.inl (Or.inl hx)
      · rcases List.mem_cons.mp hse' with rfl | hse'
        · exact Or.inl (Or.inr ⟨hs, h1, h2⟩)
        · exact Or.inr ⟨hs, se', hse', h1, h2⟩

/-- Membership in the busy set of `getAvailabilityForDate`: a grid point of
the day is busy exactly when one of the fetched intervals contains it. -/
lemma mem_collectBusySlots (intervals : List (Int × Int)) (allSlots : List Int)
    (x : Int) :
    x ∈ collectBusySlots intervals allSlots ↔
      x ∈ allSlots ∧ ∃ se ∈ intervals, se.1 ≤ x ∧ x < se.2 := by
  unfold collectBusySlots
  rw [mem_foldl_collect]
  simp

/-- `workingSlots` is the 15-minute grid of the day. -/
lemma availability_workingSlots_eq (store : List Appointment) (nowMs dateDay : Int)
    (service : Option ServiceKey) (tz : Option Int) :
    (getAvailabilityForDate store nowMs dateDay service tz).workingSlots =
      generateSlots (dateDay * msPerDay) 15 15 (some (tz.getD 0)) := rfl

/-- `busySlots` is the busy subset of the grid. -/
lemma availability_busySlots_eq (store : List Appointment) (nowMs dateDay : Int)
    (service : Option ServiceKey) (tz : Option Int) :
    (getAvailabilityForDate store nowMs dateDay service tz).busySlots =
      collectBusySlots (getBusyIntervalsISO store (dateDay * msPerDay) (tz.getD 0))
        (generateSlots (dateDay * msPerDay) 15 15 (some (tz.getD 0))) := rfl

/-- `availableSlots`, spelled out: the chunk-filtered service starts, with
the strictly-future filter applied when the requested day index equals the
day index of `now + offset`. -/
lemma availability_availableSlots_eq (store : List Appointment) (nowMs dateDay : Int)
    (service : Option ServiceKey) (tz : Option Int) :
    (getAvailabilityForDate store nowMs dateDay service tz).availableSlots =
      (if dateDay = (nowMs + (tz.getD 0) * msPerMinute) / msPerDay then
        ((generateSlots (dateDay * msPerDay) 15 (durationFor service)
            (some (tz.getD 0))).filter (fun startIso =>
          (List.range (max 1 (((durationFor service).toNat + 15 - 1) / 15))).all
            (fun i => decide ((startIso + (i : Int) * 15 * msPerMinute) ∉
              collectBusySlots
                (getBusyIntervalsISO store (dateDay * msPerDay) (tz.getD 0))
                (generateSlots (dateDay * msPerDay) 15 15 (some (tz.getD 0))))))).filter
          (fun iso => decide (iso > nowMs))
      else
        (generateSlots (dateDay * msPerDay) 15 (durationFor service)
            (some (tz.getD 0))).filter (fun startIso =>
          (List.range (max 1 (((durationFor service).toNat + 15 - 1) / 15))).all
            (fun i => decide ((startIso + (i : Int) * 15 * msPerMinute) ∉
              collectBusySlots
                (getBusyIntervalsISO store (dateDay * msPerDay) (tz.getD 0))
                (generateSlots (dateDay * msPerDay) 15 15 (some (tz.getD 0))))))) := by
  simp only [getAvailabilityForDate]

/-- Slot counts of the 15/15 grid in the two possible windows. -/
lemma length_generateSlots_15 (d : Int) (tz : Option Int) :
    (getWorkingHours d tz = (9, 13) → (generateSlots d 15 15 tz).length = 16) ∧
    (getWorkingHours d tz = (9, 18) → (generateSlots d 15 15 tz).length = 36) := by
  constructor
  · intro h
    unfold generateSlots
    rw [slotLoopFuel_base, List.length_map]
    have he : windowEndMs d tz - windowStartMs d tz = 14400000 := by
      rw [windowEndMs_sub_windowStartMs, h]
      norm_num [msPerMinute]
    have hf : (windowEndMs d tz - 15 * msPerMinute - windowStartMs d tz).toNat + 1 =
        13500001 := by
      simp only [msPerMinute]
      omega
    rw [hf, he]
    decide
  · intro h
    unfold generateSlots
    rw [slotLoopFuel_base, List.length_map]
    have he : windowEndMs d tz - windowStartMs d tz = 32400000 := by
      rw [windowEndMs_sub_windowStartMs, h]
      norm_num [msPerMinute]
    have hf : (windowEndMs d tz - 15 * msPerMinute - windowStartMs d tz).toNat + 1 =
        31500001 := by
      simp only [msPerMinute]
      omega
    rw [hf, he]
    decide

/-- With nonempty name and phone number, a `create` with a parsed start
reduces to the working-hours check, the overlap check, and the insert. -/
lemma createAppointment_valid_eq (store : List Appointment) (newId : Nat)
    (name phone : String) (s : ServiceKey) (startMs : Int) (tz : Option Int)
    (hn : name ≠ "") (hp : phone ≠ "") :
    createAppointment store newId name phone (some s) (DateInput.valid startMs) tz =
      (if startMs < (dayWindow startMs (tz.getD 0)).1 ∨
          startMs + SERVICE_DURATION_MINUTES s * msPerMinute >
            (dayWindow startMs (tz.getD 0)).2 then
        Except.error BookingError.OutOfWindow
      else if store.any (fun a =>
          decide (a.start < startMs + SERVICE_DURATION_MINUTES s * msPerMinute ∧
            a.«end» > startMs)) then
        Except.error BookingError.SlotBusy
      else
        Except.ok (store ++ [⟨newId, name, phone, s, startMs,
          startMs + SERVICE_DURATION_MINUTES s * msPerMinute⟩])) := by
  unfold createAppointment
  have hnc : ¬(name = "" ∨ phone = "" ∨ some s = none ∨
      DateInput.valid startMs = DateInput.missing) := by
    simp [hn, hp]
  rw [if_neg hnc]

/-- When the id is present, an `update` with a parsed start reduces to the
working-hours check, the overlap check excluding the id, and the write. -/
lemma updateAppointment_valid_eq (store : List Appointment) (id : Nat)
    (u : UpdateData) (appt : Appointment) (startMs : Int)
    (hfind : store.find? (fun a => decide (a.id = id)) = some appt)
    (hstart : u.start = DateInput.valid startMs) :
    updateAppointment store id u =
      (if startMs < (dayWindow startMs ((u.tzOffset).getD 0)).1 ∨
          startMs + SERVICE_DURATION_MINUTES ((u.service).getD appt.service) *
            msPerMinute > (dayWindow startMs ((u.tzOffset).getD 0)).2 then
        Except.error BookingError.OutOfWindow
      else if store.any (fun a =>
          decide (¬a.id = id ∧
            a.start < startMs + SERVICE_DURATION_MINUTES ((u.service).getD appt.service) *
              msPerMinute ∧
            a.«end» > startMs)) then
        Except.error BookingError.SlotBusy
      else
        Except.ok (store.map (fun a =>
          if a.id = id then
            ⟨a.id, (u.name).getD a.name, (u.phoneNumber).getD a.phoneNumber,
              (u.service).getD appt.service, startMs,
              startMs + SERVICE_DURATION_MINUTES ((u.service).getD appt.service) *
                msPerMinute⟩
          else a))) := by
  unfold updateAppointment
  rw [hfind, hstart]

/-- C4: for every instant and timezone offset, `getWorkingHours` returns the
09:00-13:00 window exactly when the local day-of-week computed at local noon
is Sunday (0) or Saturday (6), and the 09:00-18:00 window otherwise; the
result is a function of the local calendar date only, not of the time of day
within it. -/
theorem workingHours_weekend_rule (t : Int) (tz : Option Int) :
    (getWorkingHours t tz = (9, 13) ↔
      (dayOfWeekAtMs (localNoonMs t ((tz.getD 0) * msPerMinute)) = 0 ∨
       dayOfWeekAtMs (localNoonMs t ((tz.getD 0) * msPerMinute)) = 6)) ∧
    (getWorkingHours t tz = (9, 18) ↔
      ¬(dayOfWeekAtMs (localNoonMs t ((tz.getD 0) * msPerMinute)) = 0 ∨
        dayOfWeekAtMs (localNoonMs t ((tz.getD 0) * msPerMinute)) = 6)) ∧
    (∀ t' : Int,
      localDayIndex t ((tz.getD 0) * msPerMinute) =
        localDayIndex t' ((tz.getD 0) * msPerMinute) →
      getWorkingHours t tz = getWorkingHours t' tz) := by
  refine ⟨?_, ?_, fun t' h => getWorkingHours_congr tz h⟩
  · by_cases hc : dayOfWeekAtMs (localNoonMs t ((tz.getD 0) * msPerMinute)) = 0 ∨
        dayOfWeekAtMs (localNoonMs t ((tz.getD 0) * msPerMinute)) = 6
    · have hw : getWorkingHours t tz = (9, 13) := by
        simp only [getWorkingHours]
        rw [if_pos hc]
      simp [hw, hc]
    · have hw : getWorkingHours t tz = (9, 18) := by
        simp only [getWorkingHours]
        rw [if_neg hc]
      simp [hw, hc]
  · by_cases hc : dayOfWeekAtMs (localNoonMs t ((tz.getD 0) * msPerMinute)) = 0 ∨
        dayOfWeekAtMs (localNoonMs t ((tz.getD 0) * msPerMinute)) = 6
    · have hw : getWorkingHours t tz = (9, 13) := by
        simp only [getWorkingHours]
        rw [if_pos hc]
      simp [hw, hc]
    · have hw : getWorkingHours t tz = (9, 18) := by
        simp only [getWorkingHours]
        rw [if_neg hc]
      simp [hw, hc]

/-- Witness for C4: instantiated at 2024-06-10T00:00Z (a Monday) with offset
0, including a discharge of the date-only-dependence implication against
2024-06-10T06:13:20Z (same local day). -/
theorem workingHours_weekend_rule_witness :
    ((getWorkingHours 1717977600000 (some 0) = (9, 13) ↔
      (dayOfWeekAtMs (localNoonMs 1717977600000 (((some 0 : Option Int).getD 0) * msPerMinute)) = 0 ∨
       dayOfWeekAtMs (localNoonMs 1717977600000 (((some 0 : Option Int).getD 0) * msPerMinute)) = 6)) ∧
     (getWorkingHours 1717977600000 (some 0) = (9, 18) ↔
      ¬(dayOfWeekAtMs (localNoonMs 1717977600000 (((some 0 : Option Int).getD 0) * msPerMinute)) = 0 ∨
        dayOfWeekAtMs (localNoonMs 1717977600000 (((some 0 : Option Int).getD 0) * msPerMinute)) = 6)) ∧
     (∀ t' : Int,
       localDayIndex 1717977600000 (((some 0 : Option Int).getD 0) * msPerMinute) =
         localDayIndex t' (((some 0 : Option Int).getD 0) * msPerMinute) →
       getWorkingHours 1717977600000 (some 0) = getWorkingHours t' (some 0))) ∧
    getWorkingHours 1717977600000 (some 0) = getWorkingHours 1718000000000 (some 0) :=
  ⟨workingHours_weekend_rule 1717977600000 (some 0),
   (workingHours_weekend_rule 1717977600000 (some 0)).2.2 1718000000000 (by decide)⟩

/-- C5: for a positive slot granularity, `generateSlots` returns exactly the
instants `windowStart + k * slotMinutes` whose duration span fits inside the
window, and consecutive elements differ by exactly `slotMinutes` (so the
sequence is ascending and no candidate beyond the last element satisfies the
duration bound). -/
theorem generateSlots_grid_exact (dateUtc slotMinutes durationMinutes : Int)
    (tz : Option Int) (hs : 0 < slotMinutes) :
    (∀ x : Int, x ∈ generateSlots dateUtc slotMinutes durationMinutes tz ↔
      ∃ k : ℕ, x = windowStartMs dateUtc tz + (k : Int) * (slotMinutes * msPerMinute) ∧
        x + durationMinutes * msPerMinute ≤ windowEndMs dateUtc tz) ∧
    (generateSlots dateUtc slotMinutes durationMinutes tz).Chain'
      (fun a b => b = a + slotMinutes * msPerMinute) := by
  have hs' : (1 : Int) ≤ slotMinutes * msPerMinute := by
    simp only [msPerMinute]
    omega
  constructor
  · intro x
    exact mem_slotLoopFuel hs' _ _ x (by push_cast; omega)
  · exact chain'_slotLoopFuel _ _

/-- Witness for C5: the grid law instantiated on 2024-06-10, 15-minute grid,
45-minute duration, offset absent. -/
theorem generateSlots_grid_exact_witness :
    (0 : Int) < 15 ∧
    ((∀ x : Int, x ∈ generateSlots 1717977600000 15 45 none ↔
       ∃ k : ℕ, x = windowStartMs 1717977600000 none + (k : Int) * (15 * msPerMinute) ∧
         x + 45 * msPerMinute ≤ windowEndMs 1717977600000 none) ∧
     (generateSlots 1717977600000 15 45 none).Chain'
       (fun a b => b = a + 15 * msPerMinute)) :=
  ⟨by decide, generateSlots_grid_exact 1717977600000 15 45 none (by decide)⟩

/-- C6: for every availability query, `workingSlots` has exactly
`(endHour - startHour) * 60 / 15` entries — 16 for the weekend window
`(9, 13)` and 36 for the weekday window `(9, 18)` — and for 2024-06-10
(day index 19884, a Monday) with offset 0 the 36 entries run from
2024-06-10T09:00:00.000Z to 2024-06-10T17:45:00.000Z. -/
theorem workingSlots_count (store : List Appointment) (nowMs dateDay : Int)
    (service : Option ServiceKey) (tz : Option Int) :
    ((getAvailabilityForDate store nowMs dateDay service tz).workingSlots.length =
      (((getWorkingHours (dateDay * msPerDay) (some (tz.getD 0))).2 -
        (getWorkingHours (dateDay * msPerDay) (some (tz.getD 0))).1) * 60 / 15).toNat) ∧
    (getWorkingHours (dateDay * msPerDay) (some (tz.getD 0)) = (9, 13) →
      (getAvailabilityForDate store nowMs dateDay service tz).workingSlots.length = 16) ∧
    (getWorkingHours (dateDay * msPerDay) (some (tz.getD 0)) = (9, 18) →
      (getAvailabilityForDate store nowMs dateDay service tz).workingSlots.length = 36) ∧
    ((getAvailabilityForDate [] 0 19884 none (some 0)).workingSlots.length = 36 ∧
     (getAvailabilityForDate [] 0 19884 none (some 0)).workingSlots.head? =
       some 1718010000000 ∧
     (getAvailabilityForDate [] 0 19884 none (some 0)).workingSlots.getLast? =
       some 1718041500000) := by
  have h15 := length_generateSlots_15 (dateDay * msPerDay) (some (tz.getD 0))
  rw [availability_workingSlots_eq]
  refine ⟨?_, fun h => h15.1 h, fun h => h15.2 h, by decide, by decide, by decide⟩
  rcases getWorkingHours_cases (dateDay * msPerDay) (some (tz.getD 0)) with h | h
  · rw [h15.1 h, h]
    decide
  · rw [h15.2 h, h]
    decide

/-- Witness for C6: the weekday implication discharged on 2024-06-10. -/
theorem workingSlots_count_witness :
    getWorkingHours (19884 * msPerDay) (some 0) = (9, 18) ∧
    (getAvailabilityForDate [] 0 19884 none (some 0)).workingSlots.length = 36 :=
  ⟨by decide, (workingSlots_count [] 0 19884 none (some 0)).2.2.1 (by decide)⟩

/-- C7: on a query whose date is not the one the code treats as today, a
candidate start is available exactly when it is one of the service-duration
starts and none of the `ceil(duration / 15)` consecutive 15-minute chunks it
spans is busy; and a grid point is busy exactly when it lies on the day's
grid and some fetched appointment interval `[start, end)` contains it. -/
theorem availability_chunk_rule (store : List Appointment) (nowMs dateDay : Int)
    (service : Option ServiceKey) (tz : Option Int)
    (htoday : dateDay ≠ (nowMs + (tz.getD 0) * msPerMinute) / msPerDay) :
    (∀ x : Int,
      x ∈ (getAvailabilityForDate store nowMs dateDay service tz).busySlots ↔
        x ∈ (getAvailabilityForDate store nowMs dateDay service tz).workingSlots ∧
          ∃ se ∈ getBusyIntervalsISO store (dateDay * msPerDay) (tz.getD 0),
            se.1 ≤ x ∧ x < se.2) ∧
    (∀ x : Int,
      x ∈ (getAvailabilityForDate store nowMs dateDay service tz).availableSlots ↔
        x ∈ generateSlots (dateDay * msPerDay) 15 (durationFor service)
            (some (tz.getD 0)) ∧
          ∀ i : ℕ, i < ((durationFor service).toNat + 14) / 15 →
            (x + (i : Int) * 15 * msPerMinute) ∉
              (getAvailabilityForDate store nowMs dateDay service tz).busySlots) := by
  have hchunks : max 1 (((durationFor service).toNat + 15 - 1) / 15) =
      ((durationFor service).toNat + 14) / 15 := by
    rcases service with _ | s
    · decide
    · cases s <;> decide
  constructor
  · intro x
    rw [availability_busySlots_eq, availability_workingSlots_eq, mem_collectBusySlots]
  · intro x
    rw [availability_busySlots_eq, availability_availableSlots_eq, if_neg htoday,
      List.mem_filter, hchunks]
    apply and_congr_right
    intro _
    simp only [List.all_eq_true, List.mem_range, decide_eq_true_eq]

/-- Witness for C7: instantiated for 2024-06-10 with offset 0 at `now = 0`
(so the requested date is not today). -/
theorem availability_chunk_rule_witness :
    (19884 : Int) ≠ (0 + 0 * msPerMinute) / msPerDay ∧
    ((∀ x : Int,
      x ∈ (getAvailabilityForDate [] 0 19884 none (some 0)).busySlots ↔
        x ∈ (getAvailabilityForDate [] 0 19884 none (some 0)).workingSlots ∧
          ∃ se ∈ getBusyIntervalsISO [] (19884 * msPerDay) 0,
            se.1 ≤ x ∧ x < se.2) ∧
    (∀ x : Int,
      x ∈ (getAvailabilityForDate [] 0 19884 none (some 0)).availableSlots ↔
        x ∈ generateSlots (19884 * msPerDay) 15 (durationFor none) (some 0) ∧
          ∀ i : ℕ, i < ((durationFor none).toNat + 14) / 15 →
            (x + (i : Int) * 15 * msPerMinute) ∉
              (getAvailabilityForDate [] 0 19884 none (some 0)).busySlots)) :=
  ⟨by decide, availability_chunk_rule [] 0 19884 none (some 0) (by decide)⟩

/-- The booking validator's day window only depends on the local calendar
date of the start instant. -/
lemma dayWindow_congr (eff : Int) {t₁ t₂ : Int}
    (h : localDayIndex t₁ (eff * msPerMinute) = localDayIndex t₂ (eff * msPerMinute)) :
    dayWindow t₁ eff = dayWindow t₂ eff := by
  simp only [dayWindow, getWorkingHours, localNoonMs, localMidnightUtcMs,
    Option.getD_some, h]

/-- C1: with a well-formed body and a start inside the working window,
create is rejected with SlotBusy exactly when some stored appointment
satisfies `existing.start < end ∧ existing.end > start` against the
candidate `[start, end)`, and the candidate is persisted otherwise; update
with a supplied start behaves identically with its own id excluded from the
overlap query. -/
theorem slotBusy_iff_overlap :
    (∀ (store : List Appointment) (newId : Nat) (name phone : String)
        (s : ServiceKey) (startMs : Int) (tz : Option Int),
      name ≠ "" → phone ≠ "" →
      ¬(startMs < (dayWindow startMs (tz.getD 0)).1 ∨
        startMs + SERVICE_DURATION_MINUTES s * msPerMinute >
          (dayWindow startMs (tz.getD 0)).2) →
      ((createAppointment store newId name phone (some s) (DateInput.valid startMs) tz =
          Except.error BookingError.SlotBusy ↔
        ∃ a ∈ store,
          a.start < startMs + SERVICE_DURATION_MINUTES s * msPerMinute ∧
          a.«end» > startMs) ∧
       (¬(∃ a ∈ store,
            a.start < startMs + SERVICE_DURATION_MINUTES s * msPerMinute ∧
            a.«end» > startMs) →
         createAppointment store newId name phone (some s) (DateInput.valid startMs) tz =
           Except.ok (store ++ [⟨newId, name, phone, s, startMs,
             startMs + SERVICE_DURATION_MINUTES s * msPerMinute⟩])))) ∧
    (∀ (store : List Appointment) (id : Nat) (u : UpdateData)
        (appt : Appointment) (startMs : Int),
      store.find? (fun a => decide (a.id = id)) = some appt →
      u.start = DateInput.valid startMs →
      ¬(startMs < (dayWindow startMs ((u.tzOffset).getD 0)).1 ∨
        startMs + SERVICE_DURATION_MINUTES ((u.service).getD appt.service) *
          msPerMinute > (dayWindow startMs ((u.tzOffset).getD 0)).2) →
      ((updateAppointment store id u = Except.error BookingError.SlotBusy ↔
        ∃ a ∈ store, ¬a.id = id ∧
          a.start < startMs + SERVICE_DURATION_MINUTES ((u.service).getD appt.service) *
            msPerMinute ∧
          a.«end» > startMs) ∧
       (¬(∃ a ∈ store, ¬a.id = id ∧
            a.start < startMs + SERVICE_DURATION_MINUTES ((u.service).getD appt.service) *
              msPerMinute ∧
            a.«end» > startMs) →
         updateAppointment store id u =
           Except.ok (store.map (fun a =>
             if a.id = id then
               ⟨a.id, (u.name).getD a.name, (u.phoneNumber).getD a.phoneNumber,
                 (u.service).getD appt.service, startMs,
                 startMs + SERVICE_DURATION_MINUTES ((u.service).getD appt.service) *
                   msPerMinute⟩
             else a))))) := by
  constructor
  · intro store newId name phone s startMs tz hn hp hw
    rw [createAppointment_valid_eq store newId name phone s startMs tz hn hp,
      if_neg hw]
    by_cases hov : store.any (fun a =>
        decide (a.start < startMs + SERVICE_DURATION_MINUTES s * msPerMinute ∧
          a.«end» > startMs)) = true
    · have hex : ∃ a ∈ store,
          a.start < startMs + SERVICE_DURATION_MINUTES s * msPerMinute ∧
          a.«end» > startMs := by
        simpa only [List.any_eq_true, decide_eq_true_eq] using hov
      rw [if_pos hov]
      exact ⟨⟨fun _ => hex, fun _ => rfl⟩, fun hc => (hc hex).elim⟩
    · have hnex : ¬∃ a ∈ store,
          a.start < startMs + SERVICE_DURATION_MINUTES s * msPerMinute ∧
          a.«end» > startMs := by
        simpa only [List.any_eq_true, decide_eq_true_eq] using hov
      rw [if_neg hov]
      exact ⟨iff_of_false (by simp) hnex, fun _ => rfl⟩
  · intro store id u appt startMs hfind hstart hw
    rw [updateAppointment_valid_eq store id u appt startMs hfind hstart, if_neg hw]
    by_cases hov : store.any (fun a =>
        decide (¬a.id = id ∧
          a.start < startMs + SERVICE_DURATION_MINUTES ((u.service).getD appt.service) *
            msPerMinute ∧
          a.«end» > startMs)) = true
    · have hex : ∃ a ∈ store, ¬a.id = id ∧
          a.start < startMs + SERVICE_DURATION_MINUTES ((u.service).getD appt.service) *
            msPerMinute ∧
          a.«end» > startMs := by
        simpa only [List.any_eq_true, decide_eq_true_eq] using hov
      rw [if_pos hov]
      exact ⟨⟨fun _ => hex, fun _ => rfl⟩, fun hc => (hc hex).elim⟩
    · have hnex : ¬∃ a ∈ store, ¬a.id = id ∧
          a.start < startMs + SERVICE_DURATION_MINUTES ((u.service).getD appt.service) *
            msPerMinute ∧
          a.«end» > startMs := by
        simpa only [List.any_eq_true, decide_eq_true_eq] using hov
      rw [if_neg hov]
      exact ⟨iff_of_false (by simp) hnex, fun _ => rfl⟩

/-- Witness for C1: a create on a one-element store overlapping the
09:00-09:45 booking, and the matching update situation, both instantiated on
2024-06-10 with offset 0. -/
theorem slotBusy_iff_overlap_witness :
    (("b" : String) ≠ "" ∧ ("q" : String) ≠ "" ∧
      ¬((1718010900000 : Int) < (dayWindow 1718010900000 ((some (0 : Int)).getD 0)).1 ∨
        (1718010900000 : Int) + SERVICE_DURATION_MINUTES ServiceKey.consultation *
          msPerMinute > (dayWindow 1718010900000 ((some (0 : Int)).getD 0)).2)) ∧
    (createAppointment
        [⟨1, "a", "p", ServiceKey.treatment, 1718010000000, 1718012700000⟩] 2
        "b" "q" (some ServiceKey.consultation) (DateInput.valid 1718010900000)
        (some 0) =
      Except.error BookingError.SlotBusy ↔
      ∃ a ∈ [(⟨1, "a", "p", ServiceKey.treatment, 1718010000000,
          1718012700000⟩ : Appointment)],
        a.start < 1718010900000 + SERVICE_DURATION_MINUTES ServiceKey.consultation *
          msPerMinute ∧
        a.«end» > 1718010900000) :=
  ⟨⟨by decide, by decide, by decide⟩,
    ((slotBusy_iff_overlap.1
      [⟨1, "a", "p", ServiceKey.treatment, 1718010000000, 1718012700000⟩] 2
      "b" "q" ServiceKey.consultation 1718010900000 (some 0)
      (by decide) (by decide) (by decide)).1)⟩

/-- C9: an update or delete whose id matches no stored appointment fails
with NotFound (and, the model issuing writes only on success, leaves the
store unchanged). -/
theorem notFound_on_unknown_id (store : List Appointment) (id : Nat)
    (u : UpdateData) (h : ∀ a ∈ store, ¬a.id = id) :
    deleteAppointment store id = Except.error BookingError.NotFound ∧
    updateAppointment store id u = Except.error BookingError.NotFound := by
  have hf : store.find? (fun a => decide (a.id = id)) = none := by
    apply List.find?_eq_none.mpr
    intro a ha
    simpa using h a ha
  constructor
  · unfold deleteAppointment
    rw [hf]
  · unfold updateAppointment
    rw [hf]

/-- Witness for C9: a one-element store and an unknown id. -/
theorem notFound_on_unknown_id_witness :
    (∀ a ∈ [(⟨1, "a", "p", ServiceKey.consultation, 0, 900000⟩ : Appointment)],
      ¬a.id = 2) ∧
    deleteAppointment [⟨1, "a", "p", ServiceKey.consultation, 0, 900000⟩] 2 =
      Except.error BookingError.NotFound ∧
    updateAppointment [⟨1, "a", "p", ServiceKey.consultation, 0, 900000⟩] 2
      ⟨none, none, none, DateInput.missing, none, none⟩ =
      Except.error BookingError.NotFound :=
  ⟨by decide,
    notFound_on_unknown_id [⟨1, "a", "p", ServiceKey.consultation, 0, 900000⟩] 2
      ⟨none, none, none, DateInput.missing, none, none⟩ (by decide)⟩

/-- C10: every failing create request — missing name, phone, service or
start, an unparseable start, a start outside working hours, or an overlap
with an existing appointment — produces an error, and since the insert is
the final step of the success path, no store write happens: a create only
returns `ok` by appending exactly one new appointment. -/
theorem create_error_no_write (store : List Appointment) (newId : Nat)
    (name phone : String) (service : Option ServiceKey) (start : DateInput)
    (tz : Option Int) :
    ((name = "" ∨ phone = "" ∨ service = none ∨ start = DateInput.missing ∨
      start = DateInput.invalid ∨
      (∃ s ms, service = some s ∧ start = DateInput.valid ms ∧
        (ms < (dayWindow ms (tz.getD 0)).1 ∨
         ms + SERVICE_DURATION_MINUTES s * msPerMinute >
           (dayWindow ms (tz.getD 0)).2 ∨
         ∃ a ∈ store, a.start < ms + SERVICE_DURATION_MINUTES s * msPerMinute ∧
           a.«end» > ms))) →
      ∃ e, createAppointment store newId name phone service start tz =
        Except.error e) ∧
    (∀ st', createAppointment store newId name phone service start tz =
        Except.ok st' → ∃ appt, st' = store ++ [appt]) := by
  constructor
  · intro hfail
    by_cases h0 : name = "" ∨ phone = "" ∨ service = none ∨ start = DateInput.missing
    · refine ⟨BookingError.InvalidInput, ?_⟩
      unfold createAppointment
      rw [if_pos h0]
    · have h0' := h0
      push_neg at h0'
      obtain ⟨hn, hp, hserv, hmiss⟩ := h0'
      rcases hfail with h | h | h | h | h | ⟨s, ms, hs, hms, hrest⟩
      · exact absurd h hn
      · exact absurd h hp
      · exact absurd h hserv
      · exact absurd h hmiss
      · rcases Option.ne_none_iff_exists'.mp hserv with ⟨s, rfl⟩
        subst h
        refine ⟨BookingError.InvalidInput, ?_⟩
        unfold createAppointment
        rw [if_neg h0]
      · subst hs
        subst hms
        rw [createAppointment_valid_eq store newId name phone s ms tz hn hp]
        by_cases hwin : ms < (dayWindow ms (tz.getD 0)).1 ∨
            ms + SERVICE_DURATION_MINUTES s * msPerMinute > (dayWindow ms (tz.getD 0)).2
        · rw [if_pos hwin]
          exact ⟨_, rfl⟩
        · rw [if_neg hwin]
          rcases hrest with h | h | h
          · exact absurd (Or.inl h) hwin
          · exact absurd (Or.inr h) hwin
          · have hov : store.any (fun a =>
                decide (a.start < ms + SERVICE_DURATION_MINUTES s * msPerMinute ∧
                  a.«end» > ms)) = true := by
              simp only [List.any_eq_true, decide_eq_true_eq]
              exact h
            rw [if_pos hov]
            exact ⟨_, rfl⟩
  · intro st' hok
    unfold createAppointment at hok
    split at hok
    · cases hok
    · split at hok
      · dsimp only at hok
        split at hok
        · cases hok
        · split at hok
          · cases hok
          · injection hok with h
            exact ⟨_, h.symm⟩
      · cases hok

/-- Witness for C10: a create missing its name errors, and a well-formed
create on the empty store appends one appointment. -/
theorem create_error_no_write_witness :
    (("" : String) = "" ∨ ("p" : String) = "" ∨
      (some ServiceKey.consultation : Option ServiceKey) = none ∨
      DateInput.valid 1718010000000 = DateInput.missing ∨
      DateInput.valid 1718010000000 = DateInput.invalid ∨
      (∃ s ms, (some ServiceKey.consultation : Option ServiceKey) = some s ∧
        DateInput.valid 1718010000000 = DateInput.valid ms ∧
        (ms < (dayWindow ms ((none : Option Int).getD 0)).1 ∨
         ms + SERVICE_DURATION_MINUTES s * msPerMinute >
           (dayWindow ms ((none : Option Int).getD 0)).2 ∨
         ∃ a ∈ ([] : List Appointment),
           a.start < ms + SERVICE_DURATION_MINUTES s * msPerMinute ∧
           a.«end» > ms))) ∧
    (∃ e, createAppointment [] 7 "" "p" (some ServiceKey.consultation)
      (DateInput.valid 1718010000000) none = Except.error e) :=
  ⟨Or.inl rfl,
    (create_error_no_write [] 7 "" "p" (some ServiceKey.consultation)
      (DateInput.valid 1718010000000) none).1 (Or.inl rfl)⟩

/-- C3: with a well-formed body, create is rejected with OutOfWindow exactly
when `start < dayStart ∨ start + duration > dayEnd`, and an update that
supplies a parseable start and finds its appointment is rejected with
OutOfWindow under the same test (duration taken from the updated service);
in particular, for both paths a candidate starting exactly at
`dayEnd - duration` is accepted (no conflicting booking present) while one
starting one millisecond later is rejected with OutOfWindow. -/
theorem outOfWindow_iff_and_boundary :
    (∀ (store : List Appointment) (newId : Nat) (name phone : String)
        (s : ServiceKey) (startMs : Int) (tz : Option Int),
      name ≠ "" → phone ≠ "" →
      (createAppointment store newId name phone (some s) (DateInput.valid startMs) tz =
          Except.error BookingError.OutOfWindow ↔
        (startMs < (dayWindow startMs (tz.getD 0)).1 ∨
         startMs + SERVICE_DURATION_MINUTES s * msPerMinute >
           (dayWindow startMs (tz.getD 0)).2))) ∧
    (∀ (store : List Appointment) (id : Nat) (u : UpdateData)
        (appt : Appointment) (startMs : Int),
      store.find? (fun a => decide (a.id = id)) = some appt →
      u.start = DateInput.valid startMs →
      (updateAppointment store id u = Except.error BookingError.OutOfWindow ↔
        (startMs < (dayWindow startMs ((u.tzOffset).getD 0)).1 ∨
         startMs + SERVICE_DURATION_MINUTES ((u.service).getD appt.service) *
           msPerMinute > (dayWindow startMs ((u.tzOffset).getD 0)).2))) ∧
    (∀ (newId : Nat) (name phone : String) (s : ServiceKey) (dayIdx : Int)
        (tz : Option Int),
      name ≠ "" → phone ≠ "" →
      ((∃ st', createAppointment [] newId name phone (some s)
          (DateInput.valid
            ((dayWindow (dayIdx * msPerDay + (tz.getD 0) * msPerMinute) (tz.getD 0)).2 -
              SERVICE_DURATION_MINUTES s * msPerMinute)) tz = Except.ok st') ∧
       createAppointment [] newId name phone (some s)
          (DateInput.valid
            ((dayWindow (dayIdx * msPerDay + (tz.getD 0) * msPerMinute) (tz.getD 0)).2 -
              SERVICE_DURATION_MINUTES s * msPerMinute + 1)) tz =
         Except.error BookingError.OutOfWindow)) ∧
    (∀ (a : Appointment) (id : Nat) (nm ph : Option String)
        (sv : Option ServiceKey) (tzo ed : Option Int) (dayIdx : Int),
      a.id = id →
      ((∃ st', updateAppointment [a] id
          ⟨nm, ph, sv, DateInput.valid
            ((dayWindow (dayIdx * msPerDay + (tzo.getD 0) * msPerMinute) (tzo.getD 0)).2 -
              SERVICE_DURATION_MINUTES (sv.getD a.service) * msPerMinute),
            tzo, ed⟩ = Except.ok st') ∧
       updateAppointment [a] id
          ⟨nm, ph, sv, DateInput.valid
            ((dayWindow (dayIdx * msPerDay + (tzo.getD 0) * msPerMinute) (tzo.getD 0)).2 -
              SERVICE_DURATION_MINUTES (sv.getD a.service) * msPerMinute + 1),
            tzo, ed⟩ = Except.error BookingError.OutOfWindow)) := by
  refine ⟨?_, ?_, ?_, ?_⟩
  · intro store newId name phone s startMs tz hn hp
    rw [createAppointment_valid_eq store newId name phone s startMs tz hn hp]
    by_cases hw : startMs < (dayWindow startMs (tz.getD 0)).1 ∨
        startMs + SERVICE_DURATION_MINUTES s * msPerMinute >
          (dayWindow startMs (tz.getD 0)).2
    · rw [if_pos hw]
      exact iff_of_true rfl hw
    · rw [if_neg hw]
      refine iff_of_false ?_ hw
      by_cases hov : store.any (fun a =>
          decide (a.start < startMs + SERVICE_DURATION_MINUTES s * msPerMinute ∧
            a.«end» > startMs)) = true
      · rw [if_pos hov]
        simp
      · rw [if_neg hov]
        simp
  · intro store id u appt startMs hfind hstart
    rw [updateAppointment_valid_eq store id u appt startMs hfind hstart]
    by_cases hw : startMs < (dayWindow startMs ((u.tzOffset).getD 0)).1 ∨
        startMs + SERVICE_DURATION_MINUTES ((u.service).getD appt.service) *
          msPerMinute > (dayWindow startMs ((u.tzOffset).getD 0)).2
    · rw [if_pos hw]
      exact iff_of_true rfl hw
    · rw [if_neg hw]
      refine iff_of_false ?_ hw
      by_cases hov : store.any (fun a =>
          decide (¬a.id = id ∧
            a.start < startMs + SERVICE_DURATION_MINUTES ((u.service).getD appt.service) *
              msPerMinute ∧
            a.«end» > startMs)) = true
      · rw [if_pos hov]
        simp
      · rw [if_neg hov]
        simp
  · intro newId name phone s dayIdx tz hn hp
    have hdurb : 15 ≤ SERVICE_DURATION_MINUTES s ∧ SERVICE_DURATION_MINUTES s ≤ 45 := by
      cases s <;> simp [SERVICE_DURATION_MINUTES]
    have hmididx : localDayIndex (dayIdx * msPerDay + (tz.getD 0) * msPerMinute)
        ((tz.getD 0) * msPerMinute) = dayIdx := by
      simp only [localDayIndex, msPerDay]
      omega
    have hmid : localMidnightUtcMs (dayIdx * msPerDay + (tz.getD 0) * msPerMinute)
        ((tz.getD 0) * msPerMinute) = dayIdx * msPerDay + (tz.getD 0) * msPerMinute := by
      simp only [localMidnightUtcMs, hmididx]
    rcases getWorkingHours_cases (dayIdx * msPerDay + (tz.getD 0) * msPerMinute)
        (some (tz.getD 0)) with hwh | hwh
    · have hdw : dayWindow (dayIdx * msPerDay + (tz.getD 0) * msPerMinute) (tz.getD 0) =
          (dayIdx * msPerDay + (tz.getD 0) * msPerMinute + 9 * 60 * msPerMinute,
           dayIdx * msPerDay + (tz.getD 0) * msPerMinute + 13 * 60 * msPerMinute) := by
        simp only [dayWindow, hwh, hmid]
      simp only [hdw]
      constructor
      · rw [createAppointment_valid_eq [] newId name phone s _ tz hn hp]
        rw [dayWindow_congr (tz.getD 0)
          (show localDayIndex _ ((tz.getD 0) * msPerMinute) =
              localDayIndex (dayIdx * msPerDay + (tz.getD 0) * msPerMinute)
                ((tz.getD 0) * msPerMinute) by
            simp only [localDayIndex, msPerDay, msPerMinute]
            omega), hdw]
        rw [if_neg (by simp only [msPerMinute, msPerDay]; omega)]
        rw [if_neg (by simp)]
        exact ⟨_, rfl⟩
      · rw [createAppointment_valid_eq [] newId name phone s _ tz hn hp]
        rw [dayWindow_congr (tz.getD 0)
          (show localDayIndex _ ((tz.getD 0) * msPerMinute) =
              localDayIndex (dayIdx * msPerDay + (tz.getD 0) * msPerMinute)
                ((tz.getD 0) * msPerMinute) by
            simp only [localDayIndex, msPerDay, msPerMinute]
            omega), hdw]
        rw [if_pos (by simp only [msPerMinute, msPerDay]; omega)]
    · have hdw : dayWindow (dayIdx * msPerDay + (tz.getD 0) * msPerMinute) (tz.getD 0) =
          (dayIdx * msPerDay + (tz.getD 0) * msPerMinute + 9 * 60 * msPerMinute,
           dayIdx * msPerDay + (tz.getD 0) * msPerMinute + 18 * 60 * msPerMinute) := by
        simp only [dayWindow, hwh, hmid]
      simp only [hdw]
      constructor
      · rw [createAppointment_valid_eq [] newId name phone s _ tz hn hp]
        rw [dayWindow_congr (tz.getD 0)
          (show localDayIndex _ ((tz.getD 0) * msPerMinute) =
              localDayIndex (dayIdx * msPerDay + (tz.getD 0) * msPerMinute)
                ((tz.getD 0) * msPerMinute) by
            simp only [localDayIndex, msPerDay, msPerMinute]
            omega), hdw]
        rw [if_neg (by simp only [msPerMinute, msPerDay]; omega)]
        rw [if_neg (by simp)]
        exact ⟨_, rfl⟩
      · rw [createAppointment_valid_eq [] newId name phone s _ tz hn hp]
        rw [dayWindow_congr (tz.getD 0)
          (show localDayIndex _ ((tz.getD 0) * msPerMinute) =
              localDayIndex (dayIdx * msPerDay + (tz.getD 0) * msPerMinute)
                ((tz.getD 0) * msPerMinute) by
            simp only [localDayIndex, msPerDay, msPerMinute]
            omega), hdw]
        rw [if_pos (by simp only [msPerMinute, msPerDay]; omega)]
  · intro a id nm ph sv tzo ed dayIdx haid
    have hdurb : 15 ≤ SERVICE_DURATION_MINUTES (sv.getD a.service) ∧
        SERVICE_DURATION_MINUTES (sv.getD a.service) ≤ 45 := by
      cases sv.getD a.service <;> simp [SERVICE_DURATION_MINUTES]
    have hmididx : localDayIndex (dayIdx * msPerDay + (tzo.getD 0) * msPerMinute)
        ((tzo.getD 0) * msPerMinute) = dayIdx := by
      simp only [localDayIndex, msPerDay]
      omega
    have hmid : localMidnightUtcMs (dayIdx * msPerDay + (tzo.getD 0) * msPerMinute)
        ((tzo.getD 0) * msPerMinute) = dayIdx * msPerDay + (tzo.getD 0) * msPerMinute := by
      simp only [localMidnightUtcMs, hmididx]
    have hfind : [a].find? (fun x => decide (x.id = id)) = some a :=
      List.find?_cons_of_pos _ (by simp [haid])
    rcases getWorkingHours_cases (dayIdx * msPerDay + (tzo.getD 0) * msPerMinute)
        (some (tzo.getD 0)) with hwh | hwh
    · have hdw : dayWindow (dayIdx * msPerDay + (tzo.getD 0) * msPerMinute) (tzo.getD 0) =
          (dayIdx * msPerDay + (tzo.getD 0) * msPerMinute + 9 * 60 * msPerMinute,
           dayIdx * msPerDay + (tzo.getD 0) * msPerMinute + 13 * 60 * msPerMinute) := by
        simp only [dayWindow, hwh, hmid]
      simp only [hdw]
      generalize hB : dayIdx * msPerDay + (tzo.getD 0) * msPerMinute +
          13 * 60 * msPerMinute -
          SERVICE_DURATION_MINUTES (sv.getD a.service) * msPerMinute = B
      constructor
      · rw [updateAppointment_valid_eq [a] id ⟨nm, ph, sv, DateInput.valid B, tzo, ed⟩
          a B hfind rfl]
        dsimp only
        rw [dayWindow_congr (tzo.getD 0)
          (show localDayIndex B ((tzo.getD 0) * msPerMinute) =
              localDayIndex (dayIdx * msPerDay + (tzo.getD 0) * msPerMinute)
                ((tzo.getD 0) * msPerMinute) by
            simp only [localDayIndex, msPerDay, msPerMinute] at hB ⊢
            omega), hdw]
        rw [if_neg (by simp only [msPerMinute, msPerDay] at hB ⊢; omega)]
        rw [if_neg (by simp [haid])]
        exact ⟨_, rfl⟩
      · rw [updateAppointment_valid_eq [a] id
          ⟨nm, ph, sv, DateInput.valid (B + 1), tzo, ed⟩ a (B + 1) hfind rfl]
        dsimp only
        rw [dayWindow_congr (tzo.getD 0)
          (show localDayIndex (B + 1) ((tzo.getD 0) * msPerMinute) =
              localDayIndex (dayIdx * msPerDay + (tzo.getD 0) * msPerMinute)
                ((tzo.getD 0) * msPerMinute) by
            simp only [localDayIndex, msPerDay, msPerMinute] at hB ⊢
            omega), hdw]
        rw [if_pos (by simp only [msPerMinute, msPerDay] at hB ⊢; omega)]
    · have hdw : dayWindow (dayIdx * msPerDay + (tzo.getD 0) * msPerMinute) (tzo.getD 0) =
          (dayIdx * msPerDay + (tzo.getD 0) * msPerMinute + 9 * 60 * msPerMinute,
           dayIdx * msPerDay + (tzo.getD 0) * msPerMinute + 18 * 60 * msPerMinute) := by
        simp only [dayWindow, hwh, hmid]
      simp only [hdw]
      generalize hB : dayIdx * msPerDay + (tzo.getD 0) * msPerMinute +
          18 * 60 * msPerMinute -
          SERVICE_DURATION_MINUTES (sv.getD a.service) * msPerMinute = B
      constructor
      · rw [updateAppointment_valid_eq [a] id ⟨nm, ph, sv, DateInput.valid B, tzo, ed⟩
          a B hfind rfl]
        dsimp only
        rw [dayWindow_congr (tzo.getD 0)
          (show localDayIndex B ((tzo.getD 0) * msPerMinute) =
              localDayIndex (dayIdx * msPerDay + (tzo.getD 0) * msPerMinute)
                ((tzo.getD 0) * msPerMinute) by
            simp only [localDayIndex, msPerDay, msPerMinute] at hB ⊢
            omega), hdw]
        rw [if_neg (by simp only [msPerMinute, msPerDay] at hB ⊢; omega)]
        rw [if_neg (by simp [haid])]
        exact ⟨_, rfl⟩
      · rw [updateAppointment_valid_eq [a] id
          ⟨nm, ph, sv, DateInput.valid (B + 1), tzo, ed⟩ a (B + 1) hfind rfl]
        dsimp only
        rw [dayWindow_congr (tzo.getD 0)
          (show localDayIndex (B + 1) ((tzo.getD 0) * msPerMinute) =
              localDayIndex (dayIdx * msPerDay + (tzo.getD 0) * msPerMinute)
                ((tzo.getD 0) * msPerMinute) by
            simp only [localDayIndex, msPerDay, msPerMinute] at hB ⊢
            omega), hdw]
        rw [if_pos (by simp only [msPerMinute, msPerDay] at hB ⊢; omega)]

/-- Witness for C3: the OutOfWindow equivalence instantiated at
2024-06-10T20:00Z (outside the weekday window) with offset 0, for a create
and for an update of the 09:00 consultation to that instant. -/
theorem outOfWindow_iff_and_boundary_witness :
    (("n" : String) ≠ "" ∧ ("p" : String) ≠ "") ∧
    (createAppointment [] 1 "n" "p" (some ServiceKey.treatment)
        (DateInput.valid 1718049600000) (some 0) =
        Except.error BookingError.OutOfWindow ↔
      ((1718049600000 : Int) < (dayWindow 1718049600000 ((some (0 : Int)).getD 0)).1 ∨
       (1718049600000 : Int) + SERVICE_DURATION_MINUTES ServiceKey.treatment *
         msPerMinute > (dayWindow 1718049600000 ((some (0 : Int)).getD 0)).2)) ∧
    (updateAppointment
        [⟨1, "a", "p", ServiceKey.consultation, 1718010000000, 1718010900000⟩] 1
        ⟨none, none, none, DateInput.valid 1718049600000, some 0, none⟩ =
        Except.error BookingError.OutOfWindow ↔
      ((1718049600000 : Int) < (dayWindow 1718049600000 0).1 ∨
       (1718049600000 : Int) + SERVICE_DURATION_MINUTES ServiceKey.consultation *
         msPerMinute > (dayWindow 1718049600000 0).2)) :=
  ⟨⟨by decide, by decide⟩,
    outOfWindow_iff_and_boundary.1 [] 1 "n" "p" ServiceKey.treatment 1718049600000
      (some 0) (by decide) (by decide),
    outOfWindow_iff_and_boundary.2.1
      [⟨1, "a", "p", ServiceKey.consultation, 1718010000000, 1718010900000⟩] 1
      ⟨none, none, none, DateInput.valid 1718049600000, some 0, none⟩
      ⟨1, "a", "p", ServiceKey.consultation, 1718010000000, 1718010900000⟩
      1718049600000 rfl rfl⟩

/-- C2 counterexample: an update that changes only the service (consultation
→ treatment) is accepted and persists the old `end`, so the persisted
appointment violates `end = start + duration(service)` — the code re-derives
`end` only when `start` is supplied, not "whenever start or service
changed". -/
theorem serviceOnlyUpdate_keeps_stale_end :
    updateAppointment
        [⟨1, "a", "p", ServiceKey.consultation, 1718010000000, 1718010900000⟩] 1
        ⟨none, none, some ServiceKey.treatment, DateInput.missing, none, none⟩ =
      Except.ok [⟨1, "a", "p", ServiceKey.treatment, 1718010000000, 1718010900000⟩] ∧
    ¬((1718010900000 : Int) = 1718010000000 +
        SERVICE_DURATION_MINUTES ServiceKey.treatment * msPerMinute) :=
  ⟨rfl, by decide⟩

/-- C2 (amended): create persists `end = start + duration(service)`; update
re-derives `end` from the new start and the possibly-updated service exactly
when `start` is supplied, and when `start` is not supplied (and no explicit
`end` override is sent) it leaves `start` and `end` untouched — even when
`service` changed. -/
theorem end_matches_duration_amended :
    (∀ (store : List Appointment) (newId : Nat) (name phone : String)
        (service : Option ServiceKey) (start : DateInput) (tz : Option Int)
        (st' : List Appointment),
      createAppointment store newId name phone service start tz = Except.ok st' →
      ∃ appt : Appointment, st' = store ++ [appt] ∧
        appt.«end» = appt.start + SERVICE_DURATION_MINUTES appt.service * msPerMinute) ∧
    (∀ (store : List Appointment) (id : Nat) (u : UpdateData) (startMs : Int)
        (st' : List Appointment),
      u.start = DateInput.valid startMs →
      updateAppointment store id u = Except.ok st' →
      ∀ a ∈ st', a.id = id →
        a.start = startMs ∧
        a.«end» = a.start + SERVICE_DURATION_MINUTES a.service * msPerMinute) ∧
    (∀ (store : List Appointment) (id : Nat) (u : UpdateData)
        (st' : List Appointment),
      u.start = DateInput.missing → u.«end» = none →
      updateAppointment store id u = Except.ok st' →
      ∀ a ∈ st', ∃ b ∈ store, a.start = b.start ∧ a.«end» = b.«end») := by
  refine ⟨?_, ?_, ?_⟩
  · intro store newId name phone service start tz st' hok
    unfold createAppointment at hok
    split at hok
    · cases hok
    · split at hok
      · dsimp only at hok
        split at hok
        · cases hok
        · split at hok
          · cases hok
          · injection hok with h
            exact ⟨_, h.symm, rfl⟩
      · cases hok
  · intro store id u startMs st' hstart hok
    unfold updateAppointment at hok
    split at hok
    · cases hok
    · rw [hstart] at hok
      dsimp only at hok
      split at hok
      · cases hok
      · split at hok
        · cases hok
        · injection hok with h
          subst h
          intro a ha haid
          rcases List.mem_map.mp ha with ⟨a0, ha0, rfl⟩
          by_cases h0 : a0.id = id
          · rw [if_pos h0]
            exact ⟨rfl, rfl⟩
          · rw [if_neg h0] at haid
            exact absurd haid h0
  · intro store id u st' hstart hend hok
    unfold updateAppointment at hok
    split at hok
    · cases hok
    · rw [hstart] at hok
      dsimp only at hok
      injection hok with h
      subst h
      intro a ha
      rcases List.mem_map.mp ha with ⟨a0, ha0, rfl⟩
      by_cases h0 : a0.id = id
      · rw [if_pos h0]
        refine ⟨a0, ha0, rfl, ?_⟩
        rw [hend]
        exact rfl
      · rw [if_neg h0]
        exact ⟨a0, ha0, rfl, rfl⟩

/-- Witness for the amended C2: a successful create on the empty store,
with the appended appointment satisfying the duration law. -/
theorem end_matches_duration_amended_witness :
    createAppointment [] 5 "n" "p" (some ServiceKey.consultation)
        (DateInput.valid 1718010000000) (some 0) =
      Except.ok [⟨5, "n", "p", ServiceKey.consultation, 1718010000000,
        1718010900000⟩] ∧
    (∃ appt : Appointment,
      [(⟨5, "n", "p", ServiceKey.consultation, 1718010000000,
        1718010900000⟩ : Appointment)] = [] ++ [appt] ∧
      appt.«end» = appt.start + SERVICE_DURATION_MINUTES appt.service * msPerMinute) :=
  ⟨rfl,
    end_matches_duration_amended.1 [] 5 "n" "p" (some ServiceKey.consultation)
      (DateInput.valid 1718010000000) (some 0)
      [⟨5, "n", "p", ServiceKey.consultation, 1718010000000, 1718010900000⟩] rfl⟩

/-- C8 (code bug): the availability endpoint decides "today" from
`now + offset` instead of `now - offset` (the local-date conversion used
everywhere else).  With client offset +240 (UTC-4) at
2024-06-11T01:00:00Z — whose client-local date is 2024-06-10, day index
19884 — a query for 2024-06-10 skips the strictly-future filter and keeps
the past slot 2024-06-09T13:00:00Z in `availableSlots`. -/
theorem todayFilter_wrong_offset_sign :
    (1718067600000 - 240 * msPerMinute) / msPerDay = 19884 ∧
    (1717938000000 : Int) ∈
      (getAvailabilityForDate [] 1718067600000 19884 none (some 240)).availableSlots ∧
    (1717938000000 : Int) < 1718067600000 :=
  ⟨by decide, by decide, by decide⟩

end Appointments
